import Mathlib

set_option maxRecDepth 100000

/-!
Shallow embedding of the Focus Guardian schedule post-processing pipeline
(`core/blocks.py`, `core/meals.py`, `core/scheduler.py`).

Times are integer minutes (`Int`).  Python dictionaries for blocks, entries,
preferences, tasks and events are modelled as structures; a missing `start` or
`end` key of a raw block or event is an `Option` (subscripting a missing key
raises in Python and the callers catch that), while the other keys are read
with defaults in Python and are therefore plain fields here.  Python list
`sort` is stable; `sort_by_start` below is a stable insertion sort, which
yields the identical list for the identical key.
-/

namespace FocusGuardian

/-- Characters stripped by Python `str.strip()` (the whitespace cases that occur here). -/
def is_space_char (c : Char) : Bool :=
  c = ' ' || c = '\t' || c = '\n' || c = '\r' || c = '\x0b' || c = '\x0c'

def strip_chars (s : List Char) : List Char :=
  ((s.dropWhile is_space_char).reverse.dropWhile is_space_char).reverse

/-- Python `str.strip()`. -/
def stripStr (s : String) : String := String.mk (strip_chars s.data)

/-- Python `str.lower()` (ASCII case folding suffices for the vocabulary used). -/
def lowerStr (s : String) : String := String.mk (s.data.map Char.toLower)

def is_digit_char (c : Char) : Bool := '0' ≤ c && c ≤ '9'

def digits_to_int (ds : List Char) : Int :=
  ds.foldl (fun a c => a * 10 + Int.ofNat (c.toNat - '0'.toNat)) 0

/-- Python `int(str)`: optional surrounding whitespace, optional sign, digits. -/
def parse_int_py (s : List Char) : Option Int :=
  let t := strip_chars s
  match t with
  | '+' :: ds => if !ds.isEmpty && ds.all is_digit_char then some (digits_to_int ds) else none
  | '-' :: ds => if !ds.isEmpty && ds.all is_digit_char then some (-(digits_to_int ds)) else none
  | ds => if !ds.isEmpty && ds.all is_digit_char then some (digits_to_int ds) else none

/-- Python `str.split(":")`. -/
def split_colon (s : List Char) : List (List Char) :=
  s.foldr
    (fun c acc =>
      match acc with
      | [] => if c = ':' then [[], []] else [[c]]
      | g :: gs => if c = ':' then [] :: g :: gs else (c :: g) :: gs)
    [[]]

/-- Python substring test `pat in hay`. -/
def containsSub (hay pat : List Char) : Bool :=
  match hay with
  | [] => pat.isEmpty
  | _ :: t => pat.isPrefixOf hay || containsSub t pat

def startsWith (s pat : String) : Bool := pat.data.isPrefixOf s.data

/-- Two-digit zero-padded rendering, Python `f"{n:02d}"` for `0 ≤ n < 100`. -/
def pad2 (n : Int) : String := if n < 10 then "0" ++ toString n else toString n

/-! ## Data model -/

/-- The externally visible block payload (`type`, `title`, `focus_required`,
and the clock-string `start`/`end` keys that the pipeline rewrites on render). -/
structure Block where
  btype : String
  title : String
  focus_required : Bool
  bstart : String
  bend : String
deriving Repr, DecidableEq, Inhabited

/-- The working unit during processing: minute interval plus block payload
(Python `{"start": int, "end": int, "block": {...}}`). -/
structure Entry where
  start : Int
  stop : Int
  block : Block
deriving Repr, DecidableEq, Inhabited

/-- A raw proposed block from the draft schedule; `start`/`end` keys may be missing. -/
structure RawBlock where
  rstart : Option String
  rend : Option String
  btype : String
  title : String
  focus_required : Bool
deriving Repr, DecidableEq, Inhabited

/-- A weekly event for the scheduled day; `start`/`end` keys may be missing,
an empty title falls back to "Weekly Event" in the code. -/
structure WeeklyEvent where
  estart : Option String
  eend : Option String
  title : String
deriving Repr, DecidableEq, Inhabited

structure Task where
  name : String
  duration : Int
deriving Repr, DecidableEq, Inhabited

structure Preferences where
  wake_time : String
  sleep_time : String
  focus_block_length : Int
  break_length : Int
  morning_routine_length : Int
  evening_routine_length : Int
deriving Repr, DecidableEq, Inhabited

/-- Stable insertion of `x` after all list elements `y` with `le y x`. -/
def insert_le {α : Type} (le : α → α → Bool) (x : α) : List α → List α
  | [] => [x]
  | y :: ys => if le y x then y :: insert_le le x ys else x :: y :: ys

/-- Stable sort (insertion sort); agrees with Python's stable `list.sort`. -/
def sort_by_le {α : Type} (le : α → α → Bool) (l : List α) : List α :=
  l.foldl (fun acc x => insert_le le x acc) []

def entry_le (a b : Entry) : Bool := a.start ≤ b.start

def sort_by_start (l : List Entry) : List Entry := sort_by_le entry_le l

/-! ## core/blocks.py -/

def MINUTES_PER_DAY : Int := 1440

/-- `parse_time`: minutes since midnight for a HH:MM string, 0 on any parse failure. -/
def parse_time (value : String) : Int :=
  match split_colon value.data with
  | [h, m] =>
    match parse_int_py h, parse_int_py m with
    | some hour, some minute => hour * 60 + minute
    | _, _ => 0
  | _ => 0

/-- `minutes_to_time`: minutes since midnight to a 24-hour HH:MM string (mod 1440). -/
def minutes_to_time (minutes : Int) : String :=
  let m := minutes % MINUTES_PER_DAY
  pad2 (m / 60) ++ ":" ++ pad2 (m % 60)

/-- `normalize_minutes`: map a clock value into the scheduling timeline respecting wraparound. -/
def normalize_minutes (value wake_minutes sleep_minutes : Int) (crosses_midnight : Bool) : Int :=
  if crosses_midnight && value < wake_minutes && value ≤ sleep_minutes then
    value + MINUTES_PER_DAY
  else value

/-- `normalize_window`: normalize a start/end pair into an increasing window. -/
def normalize_window (start_minutes end_minutes wake_minutes sleep_minutes : Int)
    (crosses_midnight : Bool) : Int × Int :=
  let start := normalize_minutes start_minutes wake_minutes sleep_minutes crosses_midnight
  let stop := normalize_minutes end_minutes wake_minutes sleep_minutes crosses_midnight
  if stop ≤ start then (start, stop + MINUTES_PER_DAY) else (start, stop)

/-! ## core/meals.py

Python's meal ratios are float literals with two decimal digits; they are
modelled exactly as integer fractions `(numerator, denominator)`.  The float
truncation `int(span * ratio)` is `(span * num) / den` (all values involved
are nonnegative, where truncation and floor agree, and the magnitudes are far
below where double rounding could move an integer boundary). -/

def get_expected_meal_titles (meals_count : Int) : List String :=
  if meals_count = 1 then ["Main Meal"]
  else if meals_count = 2 then ["Breakfast", "Dinner"]
  else if meals_count = 3 then ["Breakfast", "Lunch", "Dinner"]
  else if meals_count = 4 then ["Breakfast", "Snack/Brunch", "Lunch", "Dinner"]
  else if meals_count = 5 then
    ["Breakfast", "Mid-morning Snack", "Lunch", "Afternoon Snack", "Dinner"]
  else if meals_count = 6 then
    ["Breakfast", "Mid-morning Snack", "Lunch", "Afternoon Snack", "Dinner", "Evening Snack"]
  else (List.range (max meals_count 0).toNat).map (fun i => "Meal " ++ toString (i + 1))

/-- `get_meal_ratios`, each float ratio as an exact fraction. -/
def get_meal_ratios (meals_count : Int) : List (Int × Int) :=
  if meals_count = 1 then [(50, 100)]
  else if meals_count = 2 then [(5, 100), (75, 100)]
  else if meals_count = 3 then [(5, 100), (50, 100), (82, 100)]
  else if meals_count = 4 then [(4, 100), (25, 100), (55, 100), (82, 100)]
  else if meals_count = 5 then [(4, 100), (22, 100), (45, 100), (68, 100), (88, 100)]
  else if meals_count = 6 then
    [(4, 100), (20, 100), (38, 100), (58, 100), (78, 100), (90, 100)]
  else if meals_count ≤ 0 then []
  else
    let step_den := 100 * max (meals_count - 1) 1
    (List.range meals_count.toNat).map (fun i =>
      let num := 85 * (i : Int)
      if num * 10 ≤ 9 * step_den then (num, step_den) else (9, 10))

def calculate_meal_target (index : Nat) (total day_start day_end : Int) : Int :=
  if total ≤ 0 then day_start
  else
    let rs := get_meal_ratios total
    let r :=
      match rs.get? index with
      | some p => p
      | none => ((index : Int), max (total - 1) 1)
    let r := if r.1 * 20 > 19 * r.2 then ((19 : Int), (20 : Int)) else r
    let r := if r.1 < 0 then ((0 : Int), (1 : Int)) else r
    let span := max (day_end - day_start) 1
    let target := day_start + (span * r.1) / r.2
    let target := max day_start (min target (day_end - 30))
    target - target % 5

/-- `violates_meal_spacing`; `ignore_entry` is identity-based in Python and is
modelled as the index of the entry to skip. -/
def violates_meal_spacing_from (start stop min_gap : Int) (ignore_idx : Option Nat) :
    List Entry → Nat → Bool
  | [], _ => false
  | e :: rest, i =>
    if ignore_idx = some i then violates_meal_spacing_from start stop min_gap ignore_idx rest (i + 1)
    else if e.stop ≤ start then
      if start - e.stop < min_gap then true
      else violates_meal_spacing_from start stop min_gap ignore_idx rest (i + 1)
    else if e.start ≥ stop then
      if e.start - stop < min_gap then true
      else violates_meal_spacing_from start stop min_gap ignore_idx rest (i + 1)
    else true

def violates_meal_spacing (entries : List Entry) (start stop min_gap : Int)
    (ignore_idx : Option Nat) : Bool :=
  if min_gap ≤ 0 then false
  else violates_meal_spacing_from start stop min_gap ignore_idx entries 0

def compute_free_segments (entries : List Entry) (day_start day_end : Int) :
    List (Int × Int) :=
  let step := (sort_by_start entries).foldl
    (fun (acc : List (Int × Int) × Int) e =>
      let segs := if e.start - acc.2 ≥ 20 then acc.1 ++ [(acc.2, e.start)] else acc.1
      (segs, max acc.2 e.stop))
    ([], day_start)
  if day_end - step.2 ≥ 20 then step.1 ++ [(step.2, day_end)] else step.1

def make_meal_block (meal_start meal_end : Int) (title : String) : Block :=
  ⟨"meal", title, false, minutes_to_time meal_start, minutes_to_time meal_end⟩

/-- The placement-window computation shared by the three insertion passes of
`insert_meal_entry`: clamp the target into `[lo, hi - back_off]`, snap down to
a multiple of 5, aim for 30 minutes, and pull back when overshooting `hi`
(`back_off` is 25 in the nearest-midpoint pass and 30 in the other two). -/
def carve_window (lo hi target back_off : Int) : Int × Int :=
  let ms := max lo (min target (hi - back_off))
  let ms := ms - ms % 5
  if ms + 30 > hi then (max lo (hi - 30), hi) else (ms, ms + 30)

/-- One segment step of the free-segment pass (best candidate so far is
`(distance, start, end)`; a strictly smaller distance wins). -/
def free_seg_step (entries : List Entry) (target min_gap : Int)
    (best : Option (Int × Int × Int)) (seg : Int × Int) : Option (Int × Int × Int) :=
  if seg.2 - seg.1 < 20 then best
  else
    let p := carve_window seg.1 seg.2 target 30
    if p.2 - p.1 < 20 then best
    else if violates_meal_spacing entries p.1 p.2 min_gap none then best
    else
      let dist := |p.1 - target|
      match best with
      | some b => if dist < b.1 then some (dist, p.1, p.2) else best
      | none => some (dist, p.1, p.2)

/-- Free-segment pass of `insert_meal_entry`: best placement (distance, start, end). -/
def meal_free_segment_best (entries : List Entry) (segments : List (Int × Int))
    (target min_gap : Int) : Option (Int × Int × Int) :=
  segments.foldl (free_seg_step entries target min_gap) none

def meal_keywords : List String :=
  ["free", "rest", "buffer", "flex", "break", "personal", "catch", "admin",
   "exercise", "transition", "placeholder"]

/-- Replace the entry at `idx` by `pieces` and stably re-sort
(Python `pop(idx)` followed by `insert(idx + offset, ...)` and `sort`). -/
def splice_sorted (entries : List Entry) (idx : Nat) (pieces : List Entry) : List Entry :=
  sort_by_start (entries.take idx ++ pieces ++ entries.drop (idx + 1))

/-- The up-to-three replacement pieces when a meal window `p` is carved out of
host entry `e`: before-remainder and after-remainder survive only at ≥5 minutes. -/
def carve_pieces (e : Entry) (p : Int × Int) (title : String) : List Entry :=
  let base := e.block
  let before :=
    if p.1 - e.start ≥ 5 then
      [Entry.mk e.start p.1 { base with bstart := minutes_to_time e.start, bend := minutes_to_time p.1 }]
    else []
  let after :=
    if e.stop - p.2 ≥ 5 then
      [Entry.mk p.2 e.stop { base with bstart := minutes_to_time p.2, bend := minutes_to_time e.stop }]
    else []
  before ++ [⟨p.1, p.2, make_meal_block p.1 p.2 title⟩] ++ after

/-- Shared carve of a meal out of host entry `e` (the body of the filler-block
and nearest-midpoint passes); `back_off` is 25 in the midpoint pass, 30 otherwise. -/
def meal_carve (entries : List Entry) (idx : Nat) (e : Entry) (target : Int)
    (title : String) (min_gap back_off : Int) : Option (Entry × List Entry) :=
  let p := carve_window e.start e.stop target back_off
  if p.2 - p.1 < 20 then none
  else if violates_meal_spacing entries p.1 p.2 min_gap (some idx) then none
  else
    some (⟨p.1, p.2, make_meal_block p.1 p.2 title⟩,
      splice_sorted entries idx (carve_pieces e p title))

/-- Filler-block splitting pass: candidates in start order, first success wins. -/
def meal_filler_pass (entries : List Entry) (target : Int) (title : String)
    (min_gap : Int) (allow_focus_override : Bool) :
    List (Nat × Entry) → Option (Entry × List Entry)
  | [] => none
  | (idx, e) :: rest =>
    let next := meal_filler_pass entries target title min_gap allow_focus_override rest
    let block_type := lowerStr e.block.btype
    if block_type == "weekly_event" || block_type == "meal" then next
    else if e.block.focus_required && !allow_focus_override then next
    else if !(meal_keywords.any fun k => containsSub block_type.data k.data) && !allow_focus_override then next
    else if e.stop - e.start < 30 then next
    else
      match meal_carve entries idx e target title min_gap 30 with
      | some r => some r
      | none => next

/-- Nearest-midpoint pass: candidates by scaled midpoint distance then index. -/
def meal_midpoint_pass (entries : List Entry) (target : Int) (title : String)
    (min_gap : Int) : List (Int × Nat × Entry) → Option (Entry × List Entry)
  | [] => none
  | (_, idx, e) :: rest =>
    let next := meal_midpoint_pass entries target title min_gap rest
    if e.stop - e.start < 20 then next
    else
      match meal_carve entries idx e target title min_gap 25 with
      | some r => some r
      | none => next

def idx_entry_le (a b : Nat × Entry) : Bool := a.2.start ≤ b.2.start

/-- Key order of Python tuples `(float distance, idx, entry)`; the float
midpoint distance `|mid - target|` is compared as `|start + end - 2 target|`. -/
def dist_idx_le (a b : Int × Nat × Entry) : Bool :=
  a.1 < b.1 || (a.1 = b.1 && a.2.1 ≤ b.2.1)

def insert_meal_entry (entries : List Entry) (target : Int) (title : String)
    (day_start day_end min_gap : Int) (allow_focus_override : Bool) :
    Option Entry × List Entry :=
  if day_end - day_start < 20 then (none, entries)
  else
    let segments := compute_free_segments entries day_start day_end
    match meal_free_segment_best entries segments target min_gap with
    | some b =>
      let meal_entry : Entry := ⟨b.2.1, b.2.2, make_meal_block b.2.1 b.2.2 title⟩
      (some meal_entry, sort_by_start (entries ++ [meal_entry]))
    | none =>
      let filler_candidates := sort_by_le idx_entry_le entries.enum
      match meal_filler_pass entries target title min_gap allow_focus_override filler_candidates with
      | some r => (some r.1, r.2)
      | none =>
        let candidate_blocks := entries.enum.filterMap (fun p =>
          let t := lowerStr p.2.block.btype
          if (t == "weekly_event" || t == "meal") then none
          else if !allow_focus_override && p.2.block.focus_required then none
          else some (|p.2.start + p.2.stop - 2 * target|, p.1, p.2))
        let candidate_blocks := sort_by_le dist_idx_le candidate_blocks
        match meal_midpoint_pass entries target title min_gap candidate_blocks with
        | some r => (some r.1, r.2)
        | none => (none, entries)

/-- One meal title's placement with the `[35, 30, 25, 20]` relaxation chain. -/
def place_one_meal (entries : List Entry) (target : Int) (title : String)
    (day_start day_end : Int) : List Entry :=
  let a1 := insert_meal_entry entries target title day_start day_end 35 false
  if a1.1.isSome then a1.2
  else
    let a2 := insert_meal_entry a1.2 target title day_start day_end 30 true
    if a2.1.isSome then a2.2
    else
      let a3 := insert_meal_entry a2.2 target title day_start day_end 25 true
      if a3.1.isSome then a3.2
      else (insert_meal_entry a3.2 target title day_start day_end 20 true).2

def place_meals (total day_start day_end : Int) :
    List Entry → Nat → List String → List Entry
  | entries, _, [] => entries
  | entries, idx, title :: rest =>
    let target := calculate_meal_target idx total day_start day_end
    place_meals total day_start day_end
      (place_one_meal entries target title day_start day_end) (idx + 1) rest

def is_meal_entry (e : Entry) : Bool := lowerStr e.block.btype == "meal"

/-- Convert meal entries ranked `≥ n` (by position in the sorted list) to focus blocks. -/
def retype_extra_meals (n : Nat) : List Entry → Nat → List Entry
  | [], _ => []
  | e :: rest, seen =>
    if is_meal_entry e then
      if n ≤ seen then
        { e with block := { e.block with btype := "focus_block", title := "Focus Block", focus_required := true } } :: retype_extra_meals n rest (seen + 1)
      else e :: retype_extra_meals n rest (seen + 1)
    else e :: retype_extra_meals n rest seen

/-- Re-match surviving meal entries to expected titles in start order. -/
def relabel_meals (titles : List String) : List Entry → Nat → List Entry
  | [], _ => []
  | e :: rest, seen =>
    if is_meal_entry e then
      match titles.get? seen with
      | some t =>
        { e with block := { e.block with title := t, btype := "meal", focus_required := false } } :: relabel_meals titles rest (seen + 1)
      | none => e :: relabel_meals titles rest (seen + 1)
    else e :: relabel_meals titles rest seen

def ensure_meal_coverage (entries : List Entry) (meals_count day_start day_end : Int) :
    List Entry :=
  if meals_count ≤ 0 then entries.filter (fun e => !is_meal_entry e)
  else
    let entries := sort_by_start entries
    let entries := entries.filter (fun e => !is_meal_entry e)
    let expected_titles := get_expected_meal_titles meals_count
    let entries := place_meals (Int.ofNat expected_titles.length) day_start day_end entries 0 expected_titles
    let entries := sort_by_start entries
    let entries := retype_extra_meals expected_titles.length entries 0
    relabel_meals expected_titles entries 0

/-! ## core/scheduler.py -/

def is_focus_block (block : Block) : Bool :=
  let t := lowerStr block.btype
  t == "focus_block" || t == "focus_placeholder" || t == "focus"

def is_fixed_block (block : Block) : Bool :=
  let t := lowerStr block.btype
  t == "weekly_event" || t == "meal" || t == "morning_routine" || t == "evening_routine"

def create_focus_entry (start stop : Int) (title : String) : Entry :=
  ⟨start, stop, ⟨"focus_block", if title = "" then "Focus Block" else title, true, "", ""⟩⟩

def create_free_time_entry (start stop : Int) (title : String) : Entry :=
  ⟨start, stop, ⟨"freetime", if title = "" then "Free Time" else title, false, "", ""⟩⟩

/-- The `while` loop of `build_focus_sequence`; on integer minutes the float
guard `cursor + focus_len <= end - 1e-6` is `cursor + focus_len < end` and
`cursor < end - 1e-6` is `cursor < end`.  The fuel is one more than the window
length, which the wrapper supplies; the loop advances by at least
`focus_len = max 5 _ ≥ 5` per step, so the fuel is never exhausted there. -/
def build_focus_loop (focus_len break_len stop : Int) : Nat → Int → List Entry
  | 0, _ => []
  | fuel + 1, cursor =>
    if cursor + focus_len < stop then
      let block_end := cursor + focus_len
      let focus := create_focus_entry cursor block_end "Focus Block"
      let remaining := stop - block_end
      if break_len > 0 && remaining ≥ break_len + focus_len then
        focus :: create_free_time_entry block_end (block_end + break_len) "Free Time" ::
          build_focus_loop focus_len break_len stop fuel (block_end + break_len)
      else focus :: build_focus_loop focus_len break_len stop fuel block_end
    else if cursor < stop then [create_free_time_entry cursor stop "Free Time"] else []

def build_focus_sequence (start stop : Int) (preferences : Preferences) : List Entry :=
  let focus_len := max 5 preferences.focus_block_length
  let break_len := max 0 preferences.break_length
  build_focus_loop focus_len break_len stop ((stop - start).toNat + 1) start

def fill_gaps_with_focus (entries : List Entry) (day_start day_end : Int)
    (preferences : Preferences) : List Entry :=
  let step := (sort_by_start entries).foldl
    (fun (acc : List Entry × Int) entry =>
      let start := max entry.start day_start
      let stop := min entry.stop day_end
      if stop ≤ start then acc
      else
        let news := acc.1
        let cursor := acc.2
        let gap :=
          if start > cursor then (news ++ build_focus_sequence cursor start preferences, start, start)
          else (news, cursor, max start cursor)
        let news := gap.1
        let cursor := gap.2.1
        let start := gap.2.2
        if is_focus_block entry.block then
          (news ++ build_focus_sequence start stop preferences, max cursor stop)
        else
          (news ++ [{ entry with start := start, stop := stop }], max cursor stop))
    ([], day_start)
  if step.2 < day_end then step.1 ++ build_focus_sequence step.2 day_end preferences
  else step.1

def filler_keywords : List String :=
  ["free", "personal", "project", "buffer", "catch", "admin", "rest", "recovery",
   "flex", "exercise", "movement", "leisure", "downtime", "placeholder", "unwind",
   "relax", "misc"]

def protected_types : List String :=
  ["meal", "weekly_event", "morning_routine", "evening_routine", "freetime", "focus_block"]

def task_titles_of (tasks : List Task) : List String :=
  tasks.map (fun t => lowerStr (stripStr t.name))

/-- Per-block body of the `sanitize_filler_blocks` loop. -/
def sanitize_one (task_titles : List String) (block : Block) : Block :=
  let block_type := lowerStr block.btype
  let raw_title := stripStr block.title
  let title_lower := lowerStr raw_title
  if protected_types.contains block_type then block
  else if block.focus_required then block
  else if startsWith block_type "task" || containsSub block_type.data "todo".data then block
  else if containsSub title_lower.data "todo".data || containsSub title_lower.data "task".data then block
  else if task_titles.contains title_lower then { block with btype := "todo" }
  else if (filler_keywords.any fun k => containsSub block_type.data k.data) ||
      (filler_keywords.any fun k => containsSub title_lower.data k.data) then
    if containsSub block_type.data "free".data || containsSub title_lower.data "free".data then
      { block with btype := "freetime", title := if raw_title = "" then "Free Time" else raw_title, focus_required := false }
    else { block with btype := "focus_block", title := "Focus Block", focus_required := true }
  else block

def sanitize_filler_blocks (blocks_list : List Block) (tasks : List Task) : List Block :=
  blocks_list.map (sanitize_one (task_titles_of tasks))

/-- Per-block body of the `normalize_focus_blocks` loop. -/
def normalize_one (task_titles : List String) (block : Block) : Block :=
  let block_type := lowerStr block.btype
  let title := stripStr block.title
  let title_lower := lowerStr title
  if block_type == "freetime" then
    { block with title := if title = "" then "Free Time" else title, focus_required := false }
  else if block_type == "meal" || block_type == "weekly_event" ||
      block_type == "morning_routine" || block_type == "evening_routine" then
    let deft :=
      if block_type == "meal" then "Meal"
      else if block_type == "weekly_event" then "Weekly Event"
      else if block_type == "morning_routine" then "Morning Routine"
      else "Evening Routine"
    if title = "" then { block with focus_required := false, title := deft }
    else { block with focus_required := false }
  else if startsWith block_type "task" || containsSub block_type.data "todo".data then block
  else if task_titles.contains title_lower || containsSub title_lower.data "todo".data ||
      containsSub title_lower.data "task".data then
    { block with btype := "todo" }
  else { block with btype := "focus_block", title := if title = "" then "Focus Block" else title, focus_required := true }

def normalize_focus_blocks (blocks_list : List Block) (tasks : List Task) : List Block :=
  blocks_list.map (normalize_one (task_titles_of tasks))

/-- Python dict built by insertion with overwrite; lookup returns the last binding. -/
def dict_lookup (m : List (String × Int)) (k : String) : Option Int :=
  m.foldl (fun acc p => if p.1 == k then some p.2 else acc) none

def build_task_map (tasks : List Task) : List (String × Int) :=
  tasks.foldl
    (fun m t =>
      let name := lowerStr (stripStr t.name)
      if name ≠ "" && t.duration > 0 then m ++ [(name, t.duration)] else m)
    []

def set_stop_at (entries : List Entry) (idx : Nat) (v : Int) : List Entry :=
  match entries[idx]? with
  | some e => entries.set idx { e with stop := v }
  | none => entries

/-- The inner overlap-resolution walk of `apply_task_duration_constraints`;
`steps` is the remaining index budget (the callers pass the list length). -/
def apply_task_walk (idx : Nat) : List Entry → Nat → Int → Nat → List Entry
  | entries, _, _, 0 => entries
  | entries, next_idx, current_end, steps + 1 =>
    match entries[next_idx]? with
    | none => entries
    | some ne =>
      if ne.start ≥ current_end then entries
      else
        let overlap := current_end - ne.start
        if overlap ≤ 0 then entries
        else if is_fixed_block ne.block then set_stop_at entries idx ne.start
        else
          let entries := entries.set next_idx { ne with start := ne.start + overlap, stop := ne.stop + overlap }
          apply_task_walk idx entries (next_idx + 1) (max current_end (ne.stop + overlap)) steps

/-- The outer loop of `apply_task_duration_constraints` over entry indices. -/
def apply_task_outer (task_map : List (String × Int)) : List Entry → Nat → Nat → List Entry
  | entries, _, 0 => entries
  | entries, idx, steps + 1 =>
    match entries[idx]? with
    | none => entries
    | some entry =>
      let block_type := lowerStr entry.block.btype
      let title := lowerStr (stripStr entry.block.title)
      let dur? := dict_lookup task_map title
      if !(block_type == "task" || block_type == "todo") && dur?.isNone then
        apply_task_outer task_map entries (idx + 1) steps
      else
        match dur? with
        | none => apply_task_outer task_map entries (idx + 1) steps
        | some duration =>
          if duration = 0 then apply_task_outer task_map entries (idx + 1) steps
          else
            let desired_end := entry.start + duration
            if desired_end ≤ entry.start then apply_task_outer task_map entries (idx + 1) steps
            else
              let entries := entries.set idx { entry with stop := desired_end }
              let entries := apply_task_walk idx entries (idx + 1) desired_end entries.length
              apply_task_outer task_map entries (idx + 1) steps

def apply_task_duration_constraints (entries : List Entry) (tasks : List Task) : List Entry :=
  let task_map := build_task_map tasks
  if task_map.isEmpty then entries
  else
    let entries := sort_by_start entries
    apply_task_outer task_map entries 0 entries.length

def insert_fixed_block (entries : List Entry) (start stop : Int) (block : Block) : List Entry :=
  if stop - start ≤ 0 then entries
  else
    let adjusted := entries.foldl
      (fun (acc : List Entry) entry =>
        if entry.stop ≤ start || entry.start ≥ stop then acc ++ [entry]
        else
          let acc :=
            if entry.start < start && start - entry.start > 0 then
              acc ++ [Entry.mk entry.start start entry.block]
            else acc
          if entry.stop > stop && entry.stop - stop > 0 then
            acc ++ [Entry.mk stop entry.stop entry.block]
          else acc)
      []
    sort_by_start (adjusted ++ [Entry.mk start stop block])

/-- Python `int(round(num/den))` on the exact value, for `num ≥ 0`, `den > 0`
(round half to even). -/
def bankers_round (num den : Int) : Int :=
  let q := num / den
  let r := num % den
  if 2 * r < den then q
  else if 2 * r > den then q + 1
  else if q % 2 = 0 then q else q + 1

def ensure_routines (entries : List Entry) (day_start day_end : Int)
    (preferences : Preferences) : List Entry :=
  let total_window := max (day_end - day_start) 0
  if total_window ≤ 0 then []
  else
    let morning_pref := if preferences.morning_routine_length = 0 then 30 else preferences.morning_routine_length
    let evening_pref := if preferences.evening_routine_length = 0 then 30 else preferences.evening_routine_length
    let morning_len := max 1 morning_pref
    let evening_len := max 1 evening_pref
    let scaled :=
      if morning_len + evening_len > total_window then
        (max 1 (bankers_round (morning_len * total_window) (morning_len + evening_len)),
         max 1 (bankers_round (evening_len * total_window) (morning_len + evening_len)))
      else (morning_len, evening_len)
    let morning_len := scaled.1
    let evening_len := scaled.2
    let trimmed :=
      if morning_len + evening_len > total_window then
        let overflow := morning_len + evening_len - total_window
        let reduce_evening := min overflow (max 0 (evening_len - 1))
        let evening_len := evening_len - reduce_evening
        let overflow := overflow - reduce_evening
        if overflow > 0 && morning_len > 1 then
          (morning_len - min overflow (morning_len - 1), evening_len)
        else (morning_len, evening_len)
      else (morning_len, evening_len)
    let morning_len := trimmed.1
    let evening_len := trimmed.2
    let morning_end := min (day_start + morning_len) day_end
    let morning_end :=
      if day_end - morning_end < 1 && day_end - day_start ≥ 1 then max day_start (day_end - 1)
      else morning_end
    let remaining_after_morning := max (day_end - morning_end) 0
    let evening_len :=
      if remaining_after_morning ≥ 1 then max 1 (min evening_len remaining_after_morning) else 0
    let evening_start := day_end - evening_len
    let evening_start := if evening_start < morning_end then morning_end else evening_start
    let entries := entries.filter (fun e =>
      let t := lowerStr e.block.btype
      !(t == "morning_routine" || t == "evening_routine"))
    let entries :=
      if morning_end > day_start then
        insert_fixed_block entries day_start morning_end ⟨"morning_routine", "Morning Routine", false, "", ""⟩
      else entries
    if evening_start < day_end then
      insert_fixed_block entries evening_start day_end ⟨"evening_routine", "Evening Routine", false, "", ""⟩
    else entries

/-- One event of the `enforce_weekly_events` loop (skipped when a `start`/`end`
key is missing, which is the only exception the `try` can catch). -/
def enforce_one_event (wake_minutes sleep_minutes : Int) (crosses_midnight : Bool)
    (day_start day_end : Int) (entries : List Entry) (event : WeeklyEvent) : List Entry :=
  match event.estart, event.eend with
  | some s, some e =>
    let raw_start := parse_time s
    let raw_end := parse_time e
    let title := if event.title = "" then "Weekly Event" else event.title
    let w := normalize_window raw_start raw_end wake_minutes sleep_minutes crosses_midnight
    let event_start := max day_start w.1
    let event_end := min day_end w.2
    if event_end - event_start < 5 then entries
    else
      let adjusted := entries.foldl
        (fun (acc : List Entry) entry =>
          if entry.stop ≤ event_start || entry.start ≥ event_end then acc ++ [entry]
          else
            let acc :=
              if entry.start < event_start then acc ++ [Entry.mk entry.start event_start entry.block]
              else acc
            if entry.stop > event_end then acc ++ [Entry.mk event_end entry.stop entry.block]
            else acc)
        []
      let event_block : Block :=
        ⟨"weekly_event", title, false, minutes_to_time event_start, minutes_to_time event_end⟩
      sort_by_start (adjusted ++ [Entry.mk event_start event_end event_block])
  | _, _ => entries

def enforce_weekly_events (entries : List Entry) (todays_events : List WeeklyEvent)
    (day_start day_end wake_minutes sleep_minutes : Int) (crosses_midnight : Bool) : List Entry :=
  todays_events.foldl
    (enforce_one_event wake_minutes sleep_minutes crosses_midnight day_start day_end) entries

/-- One step of the event-window widening fold of `post_process_schedule`
(lines 437–448); an event with a missing `start`/`end` key is skipped. -/
def widen_acc (wake_minutes sleep_minutes : Int) (crosses_midnight : Bool)
    (acc : Int × Int) (ev : WeeklyEvent) : Int × Int :=
  match ev.estart, ev.eend with
  | some s, some e =>
    let w := normalize_window (parse_time s) (parse_time e) wake_minutes sleep_minutes crosses_midnight
    (min acc.1 w.1, max acc.2 w.2)
  | _, _ => acc

/-- Day-window resolution of `post_process_schedule` (lines 420–451):
wake/sleep parsing, the midnight wrap, and widening over today's events. -/
def resolve_day_window (preferences : Preferences) (todays_events : List WeeklyEvent) :
    Int × Int × Bool :=
  let wake_minutes := parse_time preferences.wake_time
  let sleep_minutes := parse_time preferences.sleep_time
  let day_start := wake_minutes
  let base :=
    if sleep_minutes ≤ day_start then (sleep_minutes + MINUTES_PER_DAY, true)
    else (sleep_minutes, false)
  let day_end := base.1
  let crosses_midnight := base.2
  if todays_events.isEmpty then (day_start, day_end, crosses_midnight)
  else
    let acc := todays_events.foldl (widen_acc wake_minutes sleep_minutes crosses_midnight)
      (day_start, day_end)
    (min day_start acc.1, max day_end acc.2, crosses_midnight)

/-- The body of the ingestion loop for one raw block: a block whose `start` or
`end` key is missing raises `KeyError` inside the `try` and yields nothing;
`parse_time` itself never raises, so an unparsable string yields minute 0. -/
def ingest_one (wake_minutes sleep_minutes : Int) (crosses_midnight : Bool)
    (day_start day_end : Int) (b : RawBlock) : List Entry :=
  match b.rstart, b.rend with
  | some s, some e =>
    let w := normalize_window (parse_time s) (parse_time e) wake_minutes sleep_minutes crosses_midnight
    let start_clamped := max w.1 day_start
    let end_clamped := min w.2 day_end
    if end_clamped - start_clamped < 1 then []
    else [Entry.mk start_clamped end_clamped ⟨b.btype, b.title, b.focus_required, s, e⟩]
  | _, _ => []

/-- Ingestion stage of `post_process_schedule` (lines 453–476). -/
def ingest_blocks (raw_blocks : List RawBlock) (wake_minutes sleep_minutes : Int)
    (crosses_midnight : Bool) (day_start day_end : Int) : List Entry :=
  match raw_blocks with
  | [] => []
  | b :: rest =>
    ingest_one wake_minutes sleep_minutes crosses_midnight day_start day_end b ++
      ingest_blocks rest wake_minutes sleep_minutes crosses_midnight day_start day_end

/-- `post_process_schedule` up to the final sort (line 484), before the
clock-string rendering and the two block-level passes. -/
def post_process_entries (raw_blocks : List RawBlock) (preferences : Preferences)
    (tasks : List Task) (meals_count : Int) (todays_events : List WeeklyEvent) : List Entry :=
  let wake_minutes := parse_time preferences.wake_time
  let sleep_minutes := parse_time preferences.sleep_time
  let win := resolve_day_window preferences todays_events
  let day_start := win.1
  let day_end := win.2.1
  let crosses_midnight := win.2.2
  let entries := ingest_blocks raw_blocks wake_minutes sleep_minutes crosses_midnight day_start day_end
  let entries := sort_by_start entries
  let entries := enforce_weekly_events entries todays_events day_start day_end wake_minutes sleep_minutes crosses_midnight
  let entries := ensure_routines entries day_start day_end preferences
  let entries := apply_task_duration_constraints entries tasks
  let entries := ensure_meal_coverage entries meals_count day_start day_end
  let entries := fill_gaps_with_focus entries day_start day_end preferences
  sort_by_start entries

/-- The rendering loop (lines 485–490): write the minute values back into the
block's clock-string `start`/`end` keys. -/
def render_entries (entries : List Entry) : List Block :=
  entries.map (fun e => { e.block with bstart := minutes_to_time e.start, bend := minutes_to_time e.stop })

def post_process_schedule (raw_blocks : List RawBlock) (preferences : Preferences)
    (tasks : List Task) (meals_count : Int) (todays_events : List WeeklyEvent) : List Block :=
  let new_blocks := render_entries (post_process_entries raw_blocks preferences tasks meals_count todays_events)
  let new_blocks := sanitize_filler_blocks new_blocks tasks
  normalize_focus_blocks new_blocks tasks

/-! ## Property checkers and concrete instances used by the theorems -/

/-- `[start, stop)` intervals starting at `cursor` that exactly tile up to
`day_end`: each entry starts where the previous one stopped, has positive
length, and the last one stops at `day_end` (the spec's Coverage property). -/
def chain_from (day_end : Int) : Int → List Entry → Bool
  | cursor, [] => cursor == day_end
  | cursor, e :: rest => e.start == cursor && cursor < e.stop && chain_from day_end e.stop rest

def partitions_window (entries : List Entry) (day_start day_end : Int) : Bool :=
  chain_from day_end day_start entries

/-- Default preferences: wake 07:00, sleep 23:00, focus 50, break 0, routines 30/30. -/
def prefs0 : Preferences := ⟨"07:00", "23:00", 50, 0, 30, 30⟩

/-- A 180-minute day: wake 07:00, sleep 10:00. -/
def prefsShort : Preferences := ⟨"07:00", "10:00", 50, 0, 30, 30⟩

/-- Parseable but out-of-clock wake time. -/
def prefs99 : Preferences := ⟨"99:00", "07:00", 50, 0, 30, 30⟩

/-- Two overlapping draft blocks (07:00–11:00 and 07:30–08:00). -/
def rawA : RawBlock := ⟨some "07:00", some "11:00", "event", "A", false⟩

def rawB : RawBlock := ⟨some "07:30", some "08:00", "event", "B", false⟩

/-- A raw block whose `start` string does not parse as HH:MM. -/
def rawBad : RawBlock := ⟨some "bad", some "12:00", "event", "X", false⟩

/-- A weekly event 07:00–08:00, overlapping the morning-routine window. -/
def evMorning : WeeklyEvent := ⟨some "07:00", some "08:00", "Morning Lecture"⟩

/-- The spec's scenario event: Physics Lecture 10:00–11:30. -/
def evPhysics : WeeklyEvent := ⟨some "10:00", some "11:30", "Physics Lecture"⟩

/-- Inputs that push a filler block past the day end: a fixed 07:30–20:00
event-typed block, a task block 20:00–20:10 whose task duration is 175, and a
convertible buffer block 20:10–21:30. -/
def rawClass : RawBlock := ⟨some "07:30", some "20:00", "weekly_event", "Class", false⟩

def rawPusher : RawBlock := ⟨some "20:00", some "20:10", "todo", "Pusher", false⟩

def rawChill : RawBlock := ⟨some "20:10", some "21:30", "buffer", "Chill", false⟩

/-- Tasks for the straddling-meal input; the second one resizes the evening
routine through the title match in `apply_task_duration_constraints`. -/
def tasksPush : List Task := [⟨"Pusher", 175⟩, ⟨"Evening Routine", 1⟩]

/-- Titles of the meal blocks of the final schedule, in start order, for the
default 960-minute window with empty draft, no tasks and no events. -/
def output_meal_titles (meals_count : Int) : List String :=
  ((post_process_entries [] prefs0 [] meals_count []).filter
    (fun e => e.block.btype == "meal")).map (fun e => e.block.title)

/-- A task/todo entry 100–110 titled like the 50-minute task below. -/
def taskEntry : Entry := ⟨100, 110, ⟨"todo", "t", false, "", ""⟩⟩

/-- A morning-routine entry directly after it. -/
def routineEntry : Entry := ⟨110, 140, ⟨"morning_routine", "Morning Routine", false, "", ""⟩⟩

/-- A freetime block titled with the filler keyword "Buffer". -/
def freetimeBuffer : Block := ⟨"freetime", "Buffer", false, "", ""⟩

/-- A freetime block titled with the filler keyword "Leisure Time". -/
def freetimeLeisure : Block := ⟨"freetime", "Leisure Time", false, "", ""⟩

/-- The meal entry placed by `insert_meal_entry` on an empty entry list with
target 900 in the default window. -/
def mealAt900 : Entry := ⟨900, 930, make_meal_block 900 930 "Main Meal"⟩


/-- The day-window resolution property of C9: the midnight flag is set exactly
when sleep ≤ wake, the resolved window is increasing, and every today-event
with both time keys has its normalized window inside the resolved window. -/
def day_window_claim (preferences : Preferences) (todays_events : List WeeklyEvent) : Prop :=
  let wake := parse_time preferences.wake_time
  let sleep := parse_time preferences.sleep_time
  let r := resolve_day_window preferences todays_events
  (r.2.2 = true ↔ sleep ≤ wake) ∧
  r.1 < r.2.1 ∧
  ∀ ev ∈ todays_events, ∀ s e, ev.estart = some s → ev.eend = some e →
    r.1 ≤ (normalize_window (parse_time s) (parse_time e) wake sleep r.2.2).1 ∧
    (normalize_window (parse_time s) (parse_time e) wake sleep r.2.2).2 ≤ r.2.1

/-- The C8 walk property for position `j`: the walk preserves the list length,
never changes the duration or decreases the start of an entry other than the
one at `idx` being resized, and leaves fixed entries other than `idx` intact. -/
def task_walk_claim (idx : Nat) (entries : List Entry) (next_idx : Nat)
    (current_end : Int) (steps : Nat) (j : Nat) : Prop :=
  let out := apply_task_walk idx entries next_idx current_end steps
  out.length = entries.length ∧
  (out.getD j default).stop - (out.getD j default).start =
    (entries.getD j default).stop - (entries.getD j default).start ∧
  (entries.getD j default).start ≤ (out.getD j default).start ∧
  (is_fixed_block (entries.getD j default).block = true →
    out.getD j default = entries.getD j default)

/-! ## Theorems -/

/-- C1: the Coverage claim fails on the code.  With the overlapping draft
blocks 07:00–11:00 and 07:30–08:00 (window 07:00–23:00, no tasks, no meals, no
events), `fill_gaps_with_focus` raises the fully covered block's start above
its end instead of dropping it, and the final entries of
`post_process_schedule` do not partition the day window. -/
theorem c1_coverage_fails_on_overlapping_input :
    partitions_window (post_process_entries [rawA, rawB] prefs0 [] 0 [])
      (resolve_day_window prefs0 []).1 (resolve_day_window prefs0 []).2.1 = false := by
  decide

/-- C4: same input as C1; the final output of `post_process_schedule` contains
exactly one inverted interval, the block clipped to `[660, 480)`
(rendered "11:00"–"08:00"), violating the `start < end` invariant. -/
theorem c4_inverted_interval_emitted :
    ((post_process_entries [rawA, rawB] prefs0 [] 0 []).filter
        (fun e => e.stop ≤ e.start)).map (fun e => (e.start, e.stop)) = [(660, 480)] := by
  decide

/-- C2 counterexample: a weekly event 07:00–08:00 with wake 07:00 has clamped
span `[420, 480)` (60 ≥ 5 minutes), yet the only `weekly_event` block in the
output is 07:30–08:00 — the routine inserter carved it — so no output block
carries the event's clamped start/end. -/
theorem c2_routine_carves_weekly_event :
    ((post_process_schedule [] prefs0 [] 0 [evMorning]).filter
        (fun b => b.btype == "weekly_event")).map (fun b => (b.bstart, b.bend, b.title)) =
      [("07:30", "08:00", "Morning Lecture")] := by
  decide

/-- C2 amended: for an event clear of the routine windows — the spec's
Physics Lecture 10:00–11:30 scenario (wake 07:00, sleep 23:00, empty draft,
no tasks, three meals) — the output contains exactly one `weekly_event` block,
it spans `[600, 690)` with the event's title, and no other block overlaps it. -/
theorem c2_weekly_event_fidelity_scenario :
    (((post_process_entries [] prefs0 [] 3 [evPhysics]).filter
        (fun e => e.block.btype == "weekly_event")).map
          (fun e => (e.start, e.stop, e.block.title)) = [(600, 690, "Physics Lecture")]) ∧
    ((post_process_entries [] prefs0 [] 3 [evPhysics]).all
        (fun e => e.block.btype == "weekly_event" || e.stop ≤ 600 || 690 ≤ e.start) = true) := by
  constructor
  · decide
  · decide

/-- C3 counterexample: `meals_per_day = 6` with a day window of exactly
`30 * 6 = 180` minutes (wake 07:00, sleep 10:00), empty draft, no fixed
events: only three meal blocks are produced, not six. -/
theorem c3_meal_count_fails_at_minimal_window :
    ((resolve_day_window prefsShort []).2.1 - (resolve_day_window prefsShort []).1 = 30 * 6) ∧
    ¬ ((post_process_entries [] prefsShort [] 6 []).countP
        (fun e => e.block.btype == "meal") = 6) := by
  constructor
  · decide
  · decide

/-- C3 amended: with the default 960-minute window (wake 07:00, sleep 23:00),
empty draft, no tasks and no events, the output contains exactly N meal blocks
for every `meals_per_day = N` in 0..6, titled by the expected-titles table in
chronological order (the output list is start-sorted, so the filtered titles
are in start order). -/
theorem c3_meal_count_default_window :
    output_meal_titles 0 = get_expected_meal_titles 0 ∧
    output_meal_titles 1 = get_expected_meal_titles 1 ∧
    output_meal_titles 2 = get_expected_meal_titles 2 ∧
    output_meal_titles 3 = get_expected_meal_titles 3 ∧
    output_meal_titles 4 = get_expected_meal_titles 4 ∧
    output_meal_titles 5 = get_expected_meal_titles 5 ∧
    output_meal_titles 6 = get_expected_meal_titles 6 := by
  refine ⟨by decide, by decide, by decide, by decide, by decide, by decide, by decide⟩

/-- C5 counterexample: a raw block whose `start` string is unparsable is not
dropped: `parse_time` fails soft to minute 0, so `{"start": "bad",
"end": "12:00"}` survives ingestion as the clamped entry `[420, 720)`. -/
theorem c5_unparsable_block_survives :
    ingest_blocks [rawBad] 420 1380 false 420 1380 =
      [⟨420, 720, ⟨"event", "X", false, "bad", "12:00"⟩⟩] := by
  decide

/-- C6 counterexample: with `rawClass`/`rawPusher`/`rawChill` and `tasksPush`
(wake 07:00, sleep 23:00, one meal), the task walk pushes the buffer block to
`[1375, 1455)`, the meal engine carves the meal `[1375, 1405)` out of it, and
the gap filler clamps it at the day end: the final meal block lasts 5 minutes,
outside `[20, 30]`. -/
theorem c6_meal_duration_below_bound :
    (((post_process_entries [rawClass, rawPusher, rawChill] prefs0 tasksPush 1 []).filter
        (fun e => e.block.btype == "meal")).map (fun e => (e.start, e.stop)) = [(1375, 1380)]) ∧
    ((1380 : Int) - 1375 < 20) := by
  constructor
  · decide
  · decide

/-- C7 counterexample: a block typed `freetime` and titled "Buffer" (a filler
keyword other than "free") that is not focus-required is left unchanged by
`sanitize_filler_blocks` — `freetime` is in the protected set — instead of
being reclassified to `focus_block` as the claim states. -/
theorem c7_freetime_not_reclassified :
    sanitize_filler_blocks [freetimeBuffer] [] = [freetimeBuffer] := by
  decide

/-- C8 counterexample: a todo entry `[100, 110)` for the 50-minute task "t"
followed by a morning-routine entry `[110, 140)`.  The claim says only
`weekly_event`/`meal` are fixed and the routine is shifted forward by the
40-minute overlap (to start 150); instead `is_fixed_block` also covers
routines, the routine stays at 110 and the task is truncated back to 110. -/
theorem c8_routine_truncates_not_shifts :
    apply_task_duration_constraints [taskEntry, routineEntry] [⟨"t", 50⟩] =
        [taskEntry, routineEntry] ∧
    ¬ (((apply_task_duration_constraints [taskEntry, routineEntry] [⟨"t", 50⟩]).getD 1
        default).start = 150) := by
  constructor
  · decide
  · decide

/-- C9 counterexample: the wake string "99:00" is parseable (5940 minutes), the
sleep string "07:00" gives 420; adding 1440 yields `day_end = 1860 ≤ 5940 =
day_start`, so `day_end > day_start` does not hold for all parseable inputs. -/
theorem c9_window_not_increasing_for_wild_wake :
    resolve_day_window prefs99 [] = (5940, 1860, true) ∧
    (resolve_day_window prefs99 []).2.1 ≤ (resolve_day_window prefs99 []).1 := by
  constructor
  · decide
  · decide

theorem sanitize_one_frame (ts : List String) (b : Block) :
    (sanitize_one ts b).bstart = b.bstart ∧ (sanitize_one ts b).bend = b.bend := by
  simp only [sanitize_one]
  repeat' split
  all_goals exact ⟨rfl, rfl⟩

theorem normalize_one_frame (ts : List String) (b : Block) :
    (normalize_one ts b).bstart = b.bstart ∧ (normalize_one ts b).bend = b.bend := by
  simp only [normalize_one]
  repeat' split
  all_goals exact ⟨rfl, rfl⟩

/-- C10: the two final block-level passes never change the `start`/`end` keys:
mapped to their (start, end) pairs, the outputs of `sanitize_filler_blocks`
and `normalize_focus_blocks` coincide with the input, for every block list and
task set. -/
theorem c10_passes_preserve_start_end (blocks_list : List Block) (tasks : List Task) :
    ((sanitize_filler_blocks blocks_list tasks).map (fun b => (b.bstart, b.bend)) =
      blocks_list.map (fun b => (b.bstart, b.bend))) ∧
    ((normalize_focus_blocks blocks_list tasks).map (fun b => (b.bstart, b.bend)) =
      blocks_list.map (fun b => (b.bstart, b.bend))) := by
  constructor
  · rw [sanitize_filler_blocks, List.map_map]
    refine List.map_congr_left ?_
    intro b _
    have h := sanitize_one_frame (task_titles_of tasks) b
    simp [Function.comp, h.1, h.2]
  · rw [normalize_focus_blocks, List.map_map]
    refine List.map_congr_left ?_
    intro b _
    have h := normalize_one_frame (task_titles_of tasks) b
    simp [Function.comp, h.1, h.2]

/-- C5 amended: ingestion drops exactly the raw blocks with a missing `start`
or `end` key (they contribute no entry); a block whose time strings are merely
unparsable is kept, with `parse_time` falling back to minute 0 (see the
counterexample).  Filtering out the missing-key blocks leaves the ingested
entries unchanged. -/
theorem c5_missing_time_keys_dropped (raw_blocks : List RawBlock)
    (wake_minutes sleep_minutes : Int) (crosses_midnight : Bool) (day_start day_end : Int) :
    ingest_blocks raw_blocks wake_minutes sleep_minutes crosses_midnight day_start day_end =
      ingest_blocks (raw_blocks.filter (fun b => b.rstart.isSome && b.rend.isSome))
        wake_minutes sleep_minutes crosses_midnight day_start day_end := by
  induction raw_blocks with
  | nil => rfl
  | cons b rest ih =>
    rcases hbs : b.rstart with _ | s <;> rcases hbe : b.rend with _ | e <;>
      simp [ingest_blocks, ingest_one, List.filter_cons, hbs, hbe, ih]

theorem sanitize_one_freetime (ts : List String) (b : Block)
    (h : lowerStr b.btype = "freetime") : sanitize_one ts b = b := by
  simp only [sanitize_one, h]
  rfl

/-- C7 amended: `freetime` IS in the sanitizer's protected set, so
`sanitize_filler_blocks` never modifies a block whose lowercased type is
`freetime`, regardless of its title matching a filler keyword; keyword
reclassification applies only to unprotected types. -/
theorem c7_sanitize_protects_freetime (tasks : List Task) (blocks_list : List Block)
    (h : ∀ b ∈ blocks_list, lowerStr b.btype = "freetime") :
    sanitize_filler_blocks blocks_list tasks = blocks_list := by
  induction blocks_list with
  | nil => rfl
  | cons b rest ih =>
    have hb := sanitize_one_freetime (task_titles_of tasks) b (h b (by simp))
    have hrest := ih (fun x hx => h x (List.mem_cons_of_mem _ hx))
    simp only [sanitize_filler_blocks, List.map] at hrest ⊢
    rw [hb, hrest]

theorem c7_sanitize_protects_freetime_witness :
    (∀ b ∈ [freetimeLeisure], lowerStr b.btype = "freetime") ∧
    sanitize_filler_blocks [freetimeLeisure] [] = [freetimeLeisure] :=
  ⟨by decide, c7_sanitize_protects_freetime [] [freetimeLeisure] (by decide)⟩

theorem widen_acc_le (wake sleep : Int) (cm : Bool) (acc : Int × Int) (ev : WeeklyEvent) :
    (widen_acc wake sleep cm acc ev).1 ≤ acc.1 ∧ acc.2 ≤ (widen_acc wake sleep cm acc ev).2 := by
  cases hbs : ev.estart with
  | none => simp [widen_acc, hbs]
  | some s =>
    cases hbe : ev.eend with
    | none => simp [widen_acc, hbs, hbe]
    | some e =>
      simp only [widen_acc, hbs, hbe]
      exact ⟨min_le_left _ _, le_max_left _ _⟩

theorem widen_fold_bounds (wake sleep : Int) (cm : Bool) (evs : List WeeklyEvent) :
    ∀ acc : Int × Int,
      (evs.foldl (widen_acc wake sleep cm) acc).1 ≤ acc.1 ∧
      acc.2 ≤ (evs.foldl (widen_acc wake sleep cm) acc).2 ∧
      (∀ ev ∈ evs, ∀ s e, ev.estart = some s → ev.eend = some e →
        (evs.foldl (widen_acc wake sleep cm) acc).1 ≤
          (normalize_window (parse_time s) (parse_time e) wake sleep cm).1 ∧
        (normalize_window (parse_time s) (parse_time e) wake sleep cm).2 ≤
          (evs.foldl (widen_acc wake sleep cm) acc).2) := by
  induction evs with
  | nil =>
    intro acc
    refine ⟨le_refl _, le_refl _, ?_⟩
    intro ev hev
    exact absurd hev (List.not_mem_nil _)
  | cons ev rest ih =>
    intro acc
    have hstep := widen_acc_le wake sleep cm acc ev
    have hr := ih (widen_acc wake sleep cm acc ev)
    rw [List.foldl_cons]
    refine ⟨le_trans hr.1 hstep.1, le_trans hstep.2 hr.2.1, ?_⟩
    intro ev' hev' s e hs he
    rcases List.mem_cons.mp hev' with rfl | hmem
    · have hself : (widen_acc wake sleep cm acc ev').1 ≤
          (normalize_window (parse_time s) (parse_time e) wake sleep cm).1 ∧
          (normalize_window (parse_time s) (parse_time e) wake sleep cm).2 ≤
          (widen_acc wake sleep cm acc ev').2 := by
        simp only [widen_acc, hs, he]
        exact ⟨min_le_right _ _, le_max_right _ _⟩
      exact ⟨le_trans hr.1 hself.1, le_trans hself.2 hr.2.1⟩
    · exact hr.2.2 ev' hmem s e hs he

/-- C9 amended: with wake and sleep times that parse to genuine clock values
(in `[0, 1440)`), the resolved day window satisfies the claim: 1440 is added
and `crosses_midnight` set exactly when `day_end ≤ day_start`, the window is
widened over the parseable events, `day_end > day_start` always holds, and no
parseable today-event's normalized window lies outside the window.  (For
merely parseable but out-of-clock strings such as "99:00" the increasing-window
part fails, see the counterexample.) -/
theorem c9_day_window_resolution (preferences : Preferences) (todays_events : List WeeklyEvent)
    (hw1 : 0 ≤ parse_time preferences.wake_time) (hw2 : parse_time preferences.wake_time < 1440)
    (hs1 : 0 ≤ parse_time preferences.sleep_time) (hs2 : parse_time preferences.sleep_time < 1440) :
    day_window_claim preferences todays_events := by
  simp only [day_window_claim]
  cases hev : todays_events.isEmpty with
  | true =>
    have hnil := List.isEmpty_iff.mp hev
    subst hnil
    by_cases hcm : parse_time preferences.sleep_time ≤ parse_time preferences.wake_time
    · have hr : resolve_day_window preferences [] =
          (parse_time preferences.wake_time, parse_time preferences.sleep_time + 1440, true) := by
        simp [resolve_day_window, hcm, MINUTES_PER_DAY]
      rw [hr]
      dsimp only
      refine ⟨by simp [hcm], by omega, ?_⟩
      intro ev hev'
      exact absurd hev' (List.not_mem_nil _)
    · have hr : resolve_day_window preferences [] =
          (parse_time preferences.wake_time, parse_time preferences.sleep_time, false) := by
        simp [resolve_day_window, hcm, MINUTES_PER_DAY]
      rw [hr]
      dsimp only
      refine ⟨by simp [hcm], by omega, ?_⟩
      intro ev hev'
      exact absurd hev' (List.not_mem_nil _)
  | false =>
    by_cases hcm : parse_time preferences.sleep_time ≤ parse_time preferences.wake_time
    · have hfold := widen_fold_bounds (parse_time preferences.wake_time)
        (parse_time preferences.sleep_time) true todays_events
        (parse_time preferences.wake_time, parse_time preferences.sleep_time + 1440)
      have h1 := hfold.1
      have h2 := hfold.2.1
      have hr : resolve_day_window preferences todays_events =
          (min (parse_time preferences.wake_time)
            (todays_events.foldl (widen_acc (parse_time preferences.wake_time)
              (parse_time preferences.sleep_time) true)
              (parse_time preferences.wake_time, parse_time preferences.sleep_time + 1440)).1,
           max (parse_time preferences.sleep_time + 1440)
            (todays_events.foldl (widen_acc (parse_time preferences.wake_time)
              (parse_time preferences.sleep_time) true)
              (parse_time preferences.wake_time, parse_time preferences.sleep_time + 1440)).2,
           true) := by
        simp [resolve_day_window, hcm, hev, MINUTES_PER_DAY]
      rw [hr]
      dsimp only
      refine ⟨by simp [hcm], by omega, ?_⟩
      intro ev hev' s e hs he
      have h3 := hfold.2.2 ev hev' s e hs he
      have h4 := h3.1
      have h5 := h3.2
      constructor
      · omega
      · omega
    · have hfold := widen_fold_bounds (parse_time preferences.wake_time)
        (parse_time preferences.sleep_time) false todays_events
        (parse_time preferences.wake_time, parse_time preferences.sleep_time)
      have h1 := hfold.1
      have h2 := hfold.2.1
      have hr : resolve_day_window preferences todays_events =
          (min (parse_time preferences.wake_time)
            (todays_events.foldl (widen_acc (parse_time preferences.wake_time)
              (parse_time preferences.sleep_time) false)
              (parse_time preferences.wake_time, parse_time preferences.sleep_time)).1,
           max (parse_time preferences.sleep_time)
            (todays_events.foldl (widen_acc (parse_time preferences.wake_time)
              (parse_time preferences.sleep_time) false)
              (parse_time preferences.wake_time, parse_time preferences.sleep_time)).2,
           false) := by
        simp [resolve_day_window, hcm, hev, MINUTES_PER_DAY]
      rw [hr]
      dsimp only
      refine ⟨by simp [hcm], by omega, ?_⟩
      intro ev hev' s e hs he
      have h3 := hfold.2.2 ev hev' s e hs he
      have h4 := h3.1
      have h5 := h3.2
      constructor
      · omega
      · omega

theorem c9_day_window_resolution_witness :
    (0 ≤ parse_time prefs0.wake_time ∧ parse_time prefs0.wake_time < 1440 ∧
      0 ≤ parse_time prefs0.sleep_time ∧ parse_time prefs0.sleep_time < 1440) ∧
    day_window_claim prefs0 [evPhysics] :=
  ⟨by refine ⟨by decide, by decide, by decide, by decide⟩,
    c9_day_window_resolution prefs0 [evPhysics] (by decide) (by decide) (by decide) (by decide)⟩

theorem getD_set_ne_entry (l : List Entry) (i j : Nat) (a : Entry) (h : i ≠ j) :
    (l.set i a).getD j default = l.getD j default := by
  simp [List.getD_eq_getElem?_getD, List.getElem?_set_ne h]

theorem set_stop_at_length (entries : List Entry) (idx : Nat) (v : Int) :
    (set_stop_at entries idx v).length = entries.length := by
  unfold set_stop_at
  split <;> simp

theorem set_stop_at_getD_ne (entries : List Entry) (idx j : Nat) (v : Int) (h : j ≠ idx) :
    (set_stop_at entries idx v).getD j default = entries.getD j default := by
  unfold set_stop_at
  split
  · exact getD_set_ne_entry _ _ _ _ (Ne.symm h)
  · rfl

/-- C8 amended: in the forward overlap walk of `apply_task_duration_constraints`
the fixed set is `is_fixed_block` = {`weekly_event`, `meal`, `morning_routine`,
`evening_routine`} (a fixed next entry truncates the walking entry at `idx` and
stops; the counterexample shows a routine is NOT shifted).  For every position
`j` other than `idx`, the walk preserves the entry count and `j`'s duration,
never decreases `j`'s start, and leaves a fixed entry at `j` untouched. -/
theorem c8_task_walk_properties (idx : Nat) (steps : Nat) :
    ∀ (entries : List Entry) (next_idx : Nat) (current_end : Int) (j : Nat), j ≠ idx →
      task_walk_claim idx entries next_idx current_end steps j := by
  induction steps with
  | zero =>
    intro entries next_idx current_end j _
    exact ⟨rfl, rfl, le_refl _, fun _ => rfl⟩
  | succ steps ih =>
    intro entries next_idx current_end j hj
    simp only [task_walk_claim, apply_task_walk]
    cases hne : entries[next_idx]? with
    | none => exact ⟨rfl, rfl, le_refl _, fun _ => rfl⟩
    | some ne =>
      simp only []
      by_cases h1 : ne.start ≥ current_end
      · simp only [if_pos h1]
        refine ⟨?_, ?_, ?_, ?_⟩ <;> simp
      · simp only [if_neg h1]
        by_cases h2 : current_end - ne.start ≤ 0
        · simp only [if_pos h2]
          refine ⟨?_, ?_, ?_, ?_⟩ <;> simp
        · simp only [if_neg h2]
          by_cases h3 : is_fixed_block ne.block = true
          · simp only [if_pos h3]
            refine ⟨set_stop_at_length _ _ _, ?_, ?_, ?_⟩
            · rw [set_stop_at_getD_ne _ _ _ _ hj]
            · rw [set_stop_at_getD_ne _ _ _ _ hj]
            · intro _
              rw [set_stop_at_getD_ne _ _ _ _ hj]
          · simp only [if_neg h3]
            have hlt : next_idx < entries.length := (List.getElem?_eq_some.mp hne).1
            have ihr := ih (entries.set next_idx
                { ne with start := ne.start + (current_end - ne.start),
                          stop := ne.stop + (current_end - ne.start) })
              (next_idx + 1) (max current_end (ne.stop + (current_end - ne.start))) j hj
            simp only [task_walk_claim] at ihr
            have hlen := List.length_set entries next_idx
              { ne with start := ne.start + (current_end - ne.start),
                        stop := ne.stop + (current_end - ne.start) }
            by_cases hjn : j = next_idx
            · subst hjn
              have hEj : entries.getD j default = ne := by
                simp [List.getD_eq_getElem?_getD, hne]
              have hE'j : (entries.set j
                  { ne with start := ne.start + (current_end - ne.start),
                            stop := ne.stop + (current_end - ne.start) }).getD j default =
                  { ne with start := ne.start + (current_end - ne.start),
                            stop := ne.stop + (current_end - ne.start) } := by
                simp [List.getD_eq_getElem?_getD, List.getElem?_set_self hlt]
              refine ⟨ihr.1.trans (by rw [hlen]), ?_, ?_, ?_⟩
              · rw [ihr.2.1, hE'j, hEj]
                dsimp only
                omega
              · rw [hEj]
                have h5 := ihr.2.2.1
                rw [hE'j] at h5
                dsimp only at h5
                omega
              · intro hfix
                rw [hEj] at hfix
                exact absurd hfix (by simp [h3])
            · have hE'j := getD_set_ne_entry entries next_idx j
                { ne with start := ne.start + (current_end - ne.start),
                          stop := ne.stop + (current_end - ne.start) } (Ne.symm hjn)
              refine ⟨ihr.1.trans (by rw [hlen]), ?_, ?_, ?_⟩
              · rw [ihr.2.1, hE'j]
              · rw [← hE'j]
                exact ihr.2.2.1
              · intro hfix
                rw [← hE'j] at hfix
                rw [ihr.2.2.2 hfix, hE'j]

theorem c8_task_walk_properties_witness :
    (1 : Nat) ≠ 0 ∧ task_walk_claim 0 [taskEntry, routineEntry] 1 150 2 1 :=
  ⟨by decide, c8_task_walk_properties 0 2 [taskEntry, routineEntry] 1 150 1 (by decide)⟩

theorem carve_window_span_le (lo hi target back_off : Int) :
    (carve_window lo hi target back_off).2 - (carve_window lo hi target back_off).1 ≤ 30 := by
  simp only [carve_window]
  split <;> dsimp only <;> omega

theorem meal_carve_bounds (entries : List Entry) (idx : Nat) (e : Entry) (target : Int)
    (title : String) (min_gap back_off : Int) (m : Entry) (es : List Entry)
    (h : meal_carve entries idx e target title min_gap back_off = some (m, es)) :
    20 ≤ m.stop - m.start ∧ m.stop - m.start ≤ 30 := by
  have hspan := carve_window_span_le e.start e.stop target back_off
  simp only [meal_carve] at h
  split at h
  · exact absurd h (by simp)
  · split at h
    · exact absurd h (by simp)
    · simp only [Option.some.injEq, Prod.mk.injEq] at h
      obtain ⟨h1, h2⟩ := h
      subst h1
      dsimp only
      next h20 _ =>
        constructor
        · omega
        · omega

/-- Every `some` value of a free-segment candidate has a 20–30 minute span. -/
def free_cand_ok (b : Option (Int × Int × Int)) : Prop :=
  ∀ x, b = some x → 20 ≤ x.2.2 - x.2.1 ∧ x.2.2 - x.2.1 ≤ 30

theorem free_seg_step_ok (entries : List Entry) (target min_gap : Int)
    (best : Option (Int × Int × Int)) (seg : Int × Int) (hb : free_cand_ok best) :
    free_cand_ok (free_seg_step entries target min_gap best seg) := by
  intro x hx
  have hspan := carve_window_span_le seg.1 seg.2 target 30
  simp only [free_seg_step] at hx
  split at hx
  · exact hb x hx
  · split at hx
    · exact hb x hx
    · split at hx
      · exact hb x hx
      · split at hx
        · split at hx
          · simp only [Option.some.injEq] at hx
            subst hx
            dsimp only
            next h20 _ _ _ =>
              constructor
              · omega
              · omega
          · exact hb x hx
        · simp only [Option.some.injEq] at hx
          subst hx
          dsimp only
          next h20 _ _ =>
            constructor
            · omega
            · omega

theorem meal_free_segment_best_ok (entries : List Entry) (target min_gap : Int)
    (segments : List (Int × Int)) :
    free_cand_ok (meal_free_segment_best entries segments target min_gap) := by
  unfold meal_free_segment_best
  have hgen : ∀ best, free_cand_ok best →
      free_cand_ok (segments.foldl (free_seg_step entries target min_gap) best) := by
    induction segments with
    | nil => intro best hb; exact hb
    | cons seg rest ih =>
      intro best hb
      rw [List.foldl_cons]
      exact ih _ (free_seg_step_ok entries target min_gap best seg hb)
  exact hgen none (fun x hx => nomatch hx)

theorem meal_filler_pass_bounds (entries : List Entry) (target : Int) (title : String)
    (min_gap : Int) (allow_focus_override : Bool) :
    ∀ (cands : List (Nat × Entry)) (m : Entry) (es : List Entry),
      meal_filler_pass entries target title min_gap allow_focus_override cands = some (m, es) →
      20 ≤ m.stop - m.start ∧ m.stop - m.start ≤ 30 := by
  intro cands
  induction cands with
  | nil =>
    intro m es h
    exact absurd h (by simp [meal_filler_pass])
  | cons c rest ih =>
    intro m es h
    obtain ⟨idx, e⟩ := c
    simp only [meal_filler_pass] at h
    split at h
    · exact ih m es h
    · split at h
      · exact ih m es h
      · split at h
        · exact ih m es h
        · split at h
          · exact ih m es h
          · split at h
            next r heq =>
              simp only [Option.some.injEq] at h
              subst h
              exact meal_carve_bounds entries idx e target title min_gap 30 m es heq
            next heq => exact ih m es h

theorem meal_midpoint_pass_bounds (entries : List Entry) (target : Int) (title : String)
    (min_gap : Int) :
    ∀ (cands : List (Int × Nat × Entry)) (m : Entry) (es : List Entry),
      meal_midpoint_pass entries target title min_gap cands = some (m, es) →
      20 ≤ m.stop - m.start ∧ m.stop - m.start ≤ 30 := by
  intro cands
  induction cands with
  | nil =>
    intro m es h
    exact absurd h (by simp [meal_midpoint_pass])
  | cons c rest ih =>
    intro m es h
    obtain ⟨d, idx, e⟩ := c
    simp only [meal_midpoint_pass] at h
    split at h
    · exact ih m es h
    · split at h
      next r heq =>
        simp only [Option.some.injEq] at h
        subst h
        exact meal_carve_bounds entries idx e target title min_gap 25 m es heq
      next heq => exact ih m es h

/-- C6 amended: every meal entry returned by `insert_meal_entry` is created
with a duration in `[20, 30]` minutes, in all three passes and for every
argument; in the final output this is preserved except when the gap filler
clamps a meal straddling the day-window end, which can leave a shorter meal
block (see the counterexample, where a 5-minute meal survives). -/
theorem c6_meal_insert_duration_bounds (entries : List Entry) (target : Int) (title : String)
    (day_start day_end min_gap : Int) (allow_focus_override : Bool) :
    ∀ (m : Entry) (es : List Entry),
      insert_meal_entry entries target title day_start day_end min_gap allow_focus_override =
        (some m, es) →
      20 ≤ m.stop - m.start ∧ m.stop - m.start ≤ 30 := by
  intro m es h
  simp only [insert_meal_entry] at h
  split at h
  · simp at h
  · split at h
    next b heq =>
      simp only [Prod.mk.injEq, Option.some.injEq] at h
      obtain ⟨h1, h2⟩ := h
      subst h1
      have hok := meal_free_segment_best_ok entries target min_gap
        (compute_free_segments entries day_start day_end) b heq
      dsimp only
      exact hok
    next heq =>
      split at h
      next r heq2 =>
        simp only [Prod.mk.injEq, Option.some.injEq] at h
        obtain ⟨h1, h2⟩ := h
        subst h1
        exact meal_filler_pass_bounds entries target title min_gap allow_focus_override
          (sort_by_le idx_entry_le entries.enum) r.1 r.2 heq2
      next heq2 =>
        split at h
        next r heq3 =>
          simp only [Prod.mk.injEq, Option.some.injEq] at h
          obtain ⟨h1, h2⟩ := h
          subst h1
          refine meal_midpoint_pass_bounds entries target title min_gap _ r.1 r.2 heq3
        next heq3 => simp at h

theorem c6_meal_insert_duration_bounds_witness :
    insert_meal_entry [] 900 "Main Meal" 420 1380 35 false = (some mealAt900, [mealAt900]) ∧
    (20 ≤ mealAt900.stop - mealAt900.start ∧ mealAt900.stop - mealAt900.start ≤ 30) :=
  ⟨by decide,
    c6_meal_insert_duration_bounds [] 900 "Main Meal" 420 1380 35 false mealAt900 [mealAt900]
      (by decide)⟩

end FocusGuardian
